import Mathlib

/-!
Verification of the Pan360 mosaic-assembly engine.

This file gives a shallow embedding, in Lean 4, of the two angle-based
stitching strategies of the Pan360 repository:

* `SensorAidedStitcher.stitch` (src/stitching/sensor_aided_stitcher.py)
* `SimpleAngleStitcher.stitch`  (src/stitching/simple_angle_stitcher.py)

Modelling conventions:

* Python `float` arithmetic is modelled by exact rational arithmetic (`ℚ`).
  The float constants 0.75, 0.2, 0.3 are modelled as the exact rationals
  3/4, 1/5, 3/10.
* Machine integers are `ℤ`/`ℕ`; Python `int()` truncation toward zero is
  `pyInt`, Python `%` on integers (sign of the divisor) is `Int.emod`
  for a positive divisor.
* The external vision library (OpenCV) is abstracted by an oracle structure
  `Ext` holding the trigonometric evaluation `tanDeg` (`np.tan ∘ np.radians`
  on degrees, which the code only uses in the combinations
  `np.tan(np.radians(x)/2) = tanDeg (x/2)` and `np.tan(np.radians(x))
  = tanDeg x`), the pixel content produced by `cv2.remap` for the
  cylindrical warp (shape-preserving, since the coordinate maps have the
  input's shape), and the keypoint/descriptor/match output of
  ORB + BFMatcher on a pair of overlap regions.
* Images are pixel functions `ℕ → ℕ → Fin 3 → ℚ` with explicit height and
  width; numpy arrays raise on incompatible broadcast shapes, which is
  modelled by `Except PyErr`.  An uncaught Python exception crossing the
  `stitch` boundary is modelled by an `Except.error` result.
* Wall-clock statistics (`processing_time`) and console printing are not
  modelled.
-/

attribute [local semireducible] Rat.add Rat.mul Rat.inv Rat.sub

namespace Pan360

/-- Python `int()` applied to a float: truncation toward zero. -/
def pyInt (q : ℚ) : ℤ := if 0 ≤ q then ⌊q⌋ else ⌈q⌉

/-- `np.clip(v, lo, hi)`, which computes `min (max v lo) hi` (and hence
returns `hi` whenever `lo > hi`). -/
def npClip (v lo hi : ℤ) : ℤ := min (max v lo) hi

/-- Resolution of a Python slice bound against an axis of length `n`:
a negative index counts from the end (clamped at 0), a nonnegative one is
clamped at `n`. -/
def pyResolve (n : ℕ) (i : ℤ) : ℕ := if i < 0 then ((n : ℤ) + i).toNat else min i.toNat n

/-- Broadcast index: an axis of extent 1 is stretched, i.e. always read at 0. -/
def bidx (n : ℕ) (i : ℕ) : ℕ := if n = 1 then 0 else i

/-- Broadcast of two axis extents: equal, or one of them 1; `none` means the
shapes are incompatible and numpy raises. -/
def bdim (a b : ℕ) : Option ℕ :=
  if a = b then some a else if a = 1 then some b else if b = 1 then some a else none

/-- `np.clip(·, 0, 255)` followed by `.astype(np.uint8)` on one float value. -/
def toU8 (q : ℚ) : ℚ := ((pyInt (min (max q 0) 255) : ℤ) : ℚ)

/-- A float32 value cast straight to `uint8` (C truncation, wrapping mod 256),
as in `canvas.astype(np.uint8)` without a prior clip. -/
def u8wrap (q : ℚ) : ℚ := ((pyInt q % 256 : ℤ) : ℚ)

/-- Insertion of `x` into a sorted list, after every element `y` with
`le y x`; the building block of the stable sort below. -/
def insertSorted {α : Type} (le : α → α → Bool) (x : α) : List α → List α
  | [] => [x]
  | y :: ys => if le y x then y :: insertSorted le x ys else x :: y :: ys

/-- Stable ascending sort (Python's `sorted` / `list.sort`): elements are
inserted left to right, each after all previously placed equal elements. -/
def stableSort {α : Type} (le : α → α → Bool) (l : List α) : List α :=
  l.foldl (fun acc x => insertSorted le x acc) []

/-- `np.median` of a list of floats: middle element of the ascending sort,
or the mean of the two middle elements for even length (0 on the empty
list, which the code never reaches). -/
def npMedian (l : List ℚ) : ℚ :=
  let s := stableSort (fun a b => decide (a ≤ b)) l
  let n := s.length
  if n = 0 then 0
  else if n % 2 = 1 then s.getD (n / 2) 0
  else (s.getD (n / 2 - 1) 0 + s.getD (n / 2) 0) / 2

/-- Python string comparison `a <= b`: lexicographic on code points. -/
def charsLe : List Char → List Char → Bool
  | [], _ => true
  | _ :: _, [] => false
  | c :: cs, d :: ds => if c = d then charsLe cs ds else decide (c < d)

/-- Python `sorted` on strings uses this code-point lexicographic order. -/
def strLeB (a b : String) : Bool := charsLe a.toList b.toList

/-- The last `'/'`-separated component of a path: `pathlib.Path(p).name`. -/
def chAfterLastSlash (cur : List Char) : List Char → List Char
  | [] => cur.reverse
  | c :: cs => if c = '/' then chAfterLastSlash [] cs else chAfterLastSlash (c :: cur) cs

/-- `Path(p).name` (POSIX separators). -/
def basename (p : String) : String := String.mk (chAfterLastSlash [] p.toList)

/-- Maximal leading run of ASCII digits (the greedy `\d+`). -/
def takeDigits : List Char → List Char
  | [] => []
  | c :: cs => if c.isDigit then c :: takeDigits cs else []

/-- Value of a digit string. -/
def digitsToNat (ds : List Char) : ℕ :=
  ds.foldl (fun n c => 10 * n + (c.toNat - '0'.toNat)) 0

/-- Match of `angle` + separator + `\d+` anchored at the head of the list;
`sepOk` selects the separator class (`[_-]` or `_`). -/
def angleNumAt (sepOk : Char → Bool) : List Char → Option ℕ
  | 'a' :: 'n' :: 'g' :: 'l' :: 'e' :: d :: rest =>
    if sepOk d then
      match takeDigits rest with
      | [] => none
      | ds => some (digitsToNat ds)
    else none
  | _ => none

/-- `re.search`: leftmost position at which the whole pattern matches, with
the greedy digit run. -/
def angleScan (sepOk : Char → Bool) : List Char → Option ℕ
  | [] => none
  | c :: cs =>
    match angleNumAt sepOk (c :: cs) with
    | some n => some n
    | none => angleScan sepOk cs

/-- An image: an `h × w × 3` uint8/float pixel array, as a total pixel
function together with its dimensions. -/
structure Image where
  h : ℕ
  w : ℕ
  pix : ℕ → ℕ → Fin 3 → ℚ

/-- `img[:, a:b]`: a column slice, with Python slice-bound resolution. -/
def imgCols (img : Image) (a b : ℤ) : Image :=
  let s := pyResolve img.w a
  let e := pyResolve img.w b
  ⟨img.h, e - s, fun y x c => img.pix y (s + x) c⟩

/-- The mutable accumulation state of one stitch call: the float RGB canvas
and the parallel weight map (both conceptually `h × canvasWidth`). -/
structure Canvas where
  pix : ℕ → ℕ → Fin 3 → ℚ
  wt : ℕ → ℕ → ℚ

/-- The all-zero canvas produced by `np.zeros`. -/
def canvas0 : Canvas := ⟨fun _ _ _ => 0, fun _ _ => 0⟩

/-- One `cv2.DMatch` from `knnMatch`. -/
structure KnnM where
  queryIdx : ℕ
  trainIdx : ℕ
  distance : ℚ
  deriving DecidableEq

/-- Output of the external feature stage (ORB `detectAndCompute` on the two
grayscale overlap regions plus `BFMatcher.knnMatch(des1, des2, k=2)`).
`des1`/`des2` record whether the descriptor matrices are non-`None`. -/
structure MatchData where
  kp1 : List (ℚ × ℚ)
  des1 : Bool
  kp2 : List (ℚ × ℚ)
  des2 : Bool
  knn : List (List KnnM)

/-- The external image/vision capability (spec §6): trigonometric float
evaluation, `cv2.remap` pixel production for the cylindrical warp, and the
feature detect/match outcome on a pair of overlap regions. -/
structure Ext where
  tanDeg : ℚ → ℚ
  warpPix : Image → ℚ → ℕ → ℕ → Fin 3 → ℚ
  matchData : Image → Image → MatchData

/-- Cylindrical projection `_cylindrical_warp`: the coordinate maps have the
input's shape, so `cv2.remap` returns an image of the same dimensions; the
resampled pixel content is delegated to the external library. -/
def cylWarp (ext : Ext) (img : Image) (focal : ℚ) : Image :=
  ⟨img.h, img.w, ext.warpPix img focal⟩

/-- Python exceptions that the embedded numpy operations can raise. -/
inductive PyErr where
  | valueError
  | zeroDivisionError
  | indexError
  deriving DecidableEq

/-- `str(e)` for the statistics dictionary of the `except` handler. -/
def pyErrMsg : PyErr → String
  | .valueError => "ValueError"
  | .zeroDivisionError => "ZeroDivisionError"
  | .indexError => "IndexError"

/-- Whether an embedded computation raised (an exception crossed the
strategy boundary). -/
def isErr {ε α : Type} : Except ε α → Bool
  | .error _ => true
  | .ok _ => false

instance {ε α : Type} [DecidableEq ε] [DecidableEq α] : DecidableEq (Except ε α) := fun a b =>
  match a, b with
  | .ok x, .ok y => if h : x = y then .isTrue (by rw [h]) else .isFalse (by simp [h])
  | .error x, .error y => if h : x = y then .isTrue (by rw [h]) else .isFalse (by simp [h])
  | .ok _, .error _ => .isFalse (by simp)
  | .error _, .ok _ => .isFalse (by simp)

/-! ## Sensor-aided sequential stitcher (sensor_aided_stitcher.py) -/

/-- Constructor parameters of `SensorAidedStitcher` with their defaults. -/
structure SensorCfg where
  hfovDeg : ℚ := 54
  blendWidth : ℕ := 100
  useFineTuning : Bool := true
  overlapSearchWidth : ℚ := 3/10
  debugMode : Bool := false
  enableLoopClosure : Bool := true

/-- `SensorAidedStitcher._extract_angle`: `re.search(r'angle[_-](\d+)', filename)`,
returning the digits as a float, or `None`. -/
def extractAngleSA (filename : String) : Option ℚ :=
  (angleScan (fun c => c = '_' || c = '-') filename.toList).map (fun n => (n : ℚ))

/-- The feather weight array of the blending branch (lines 277-287): ones,
then the left loop writes column `x < blendWidth` with `x / blendWidth`, then
the right loop overwrites column `w - blendWidth + x` with `1 - x / blendWidth`.
Only meaningful for `blendWidth ≤ w` (otherwise the left loop raises an
`IndexError` before the array is used, see `sensorPlaceFrame`). -/
def maskSensor (bw w j : ℕ) : ℚ :=
  if w - bw ≤ j ∧ j < w ∧ 0 < bw ∧ bw ≤ w then 1 - ((j - (w - bw) : ℕ) : ℚ) / bw
  else if j < bw then (j : ℚ) / bw
  else 1

/-- `SensorAidedStitcher._find_constrained_offset` (lines 105-180): extract
the trailing/leading overlap windows, run the external feature stage, apply
the 0.75 ratio test, fall back to `expected_offset` when features or good
matches are insufficient, otherwise take the median horizontal displacement
and clamp it to `expected_offset ± int(expected_offset * 0.2)`. -/
def ratioGood (knn : List (List KnnM)) : List KnnM :=
  knn.filterMap (fun pair =>
    match pair with
    | [m, n] => if m.distance < 3/4 * n.distance then some m else none
    | _ => none)

/-- The horizontal displacements `pts2[:, 0] - (pts1[:, 0] + (w - search_width))
+ expected_offset` of the accepted matches (lines 160-167). -/
def hDisplacements (md : MatchData) (w : ℕ) (sw e : ℤ) : List ℚ :=
  (ratioGood md.knn).map (fun m =>
    (md.kp2.getD m.trainIdx (0, 0)).1
      - ((md.kp1.getD m.queryIdx (0, 0)).1 + ((w : ℚ) - (sw : ℚ)))
      + (e : ℚ))

/-- Lines 170-178: `int(np.median(...))` clamped by `np.clip` to
`expected_offset ± int(expected_offset * 0.2)`. -/
def clampRefine (e : ℤ) (m : ℚ) : ℤ :=
  npClip (pyInt m) (e - pyInt ((e : ℚ) * (1/5))) (e + pyInt ((e : ℚ) * (1/5)))

def findConstrainedOffset (ext : Ext) (osw : ℚ) (img1 img2 : Image) (expectedOffset : ℤ) : ℤ :=
  let w := img1.w
  let sw := pyInt ((w : ℚ) * osw)
  let md := ext.matchData (imgCols img1 ((w : ℤ) - sw) w) (imgCols img2 0 sw)
  if md.des1 = false ∨ md.des2 = false ∨ md.kp1.length < 4 ∨ md.kp2.length < 4 then
    expectedOffset
  else if (ratioGood md.knn).length < 4 then expectedOffset
  else clampRefine expectedOffset (npMedian (hDisplacements md w sw expectedOffset))

/-- The sequential placement loop of `stitch` (lines 244-264), restricted to
the offset computation: `prev` carries the previously warped frame and its
resolved offset (`offsets[-1]`); the first frame, or fine-tuning disabled,
places at `int(angle * pixels_per_degree)`. -/
def sensorOffsetsGo (ext : Ext) (ft : Bool) (osw ppd : ℚ) :
    List (Image × ℚ) → Option (Image × ℤ) → List ℤ
  | [], _ => []
  | (img, a) :: rest, prev =>
    let expectedX := pyInt (a * ppd)
    let actualX :=
      match prev, ft with
      | some (pimg, plast), true =>
        let expectedOffset := expectedX - plast
        plast + findConstrainedOffset ext osw pimg img expectedOffset
      | _, _ => expectedX
    actualX :: sensorOffsetsGo ext ft osw ppd rest (some (img, actualX))

/-- Placement of one frame on the canvas (lines 266-297).  `h`/`w` are the
first frame's dimensions (the code builds the feather array and the slice
bounds from them), `cwN` the canvas width.  Numpy raises on the
out-of-bounds feather write (`blendWidth > w`) and on a broadcast-
incompatible in-place update, which the embedding surfaces as `.error`. -/
def sensorPlaceFrame (debug : Bool) (bw h w cwN : ℕ) (cv : Canvas)
    (fr : Image × ℤ) : Except PyErr Canvas :=
  let img := fr.1
  let ax := fr.2
  let xEnd : ℤ := min (ax + (w : ℤ)) (cwN : ℤ)
  let s := pyResolve cwN ax
  let e := pyResolve cwN xEnd
  let L := e - s
  let imgW : ℤ := xEnd - ax
  let k := pyResolve img.w imgW
  if debug then
    if (img.h = h ∨ img.h = 1) ∧ (k = L ∨ k = 1) then
      .ok ⟨fun y X c => if s ≤ X ∧ X < s + L then img.pix (bidx img.h y) (bidx k (X - s)) c
                        else cv.pix y X c,
           fun y X => if s ≤ X ∧ X < s + L then 1 else cv.wt y X⟩
    else .error .valueError
  else
    if w < bw then .error .indexError
    else
      let kw := pyResolve w imgW
      match bdim img.h h, bdim k kw with
      | some bh, some bk =>
        if ((bh = h ∨ bh = 1) ∧ (bk = L ∨ bk = 1)) ∧ (kw = L ∨ kw = 1) then
          .ok ⟨fun y X c =>
                 if s ≤ X ∧ X < s + L then
                   cv.pix y X c
                     + img.pix (bidx img.h (bidx bh y)) (bidx k (bidx bk (X - s))) c
                       * maskSensor bw w (bidx kw (bidx bk (X - s)))
                 else cv.pix y X c,
               fun y X =>
                 if s ≤ X ∧ X < s + L then cv.wt y X + maskSensor bw w (bidx kw (X - s))
                 else cv.wt y X⟩
        else .error .valueError
      | _, _ => .error .valueError

/-- The whole placement loop over the warped frames and their offsets. -/
def sensorPlaceAll (debug : Bool) (bw h w cwN : ℕ) (frames : List (Image × ℤ)) :
    Except PyErr Canvas :=
  frames.foldlM (sensorPlaceFrame debug bw h w cwN) canvas0

/-- The closure error of lines 302-306: `expected_last_x` is the wrap-around
position of the final frame, `(expected_last_x - (last_x + w)) % canvas_width`
the signed difference modulo canvas width (nonnegative for positive width). -/
def sensorClosureError (offsets : List ℤ) (lastAngle inc ppd : ℚ) (cw w : ℤ) : ℤ :=
  let lastX := offsets.getLastD 0
  let expectedLastX := pyInt ((lastAngle + inc) * ppd) % cw
  (expectedLastX - (lastX + w)) % cw

/-- The loop-closure block of `stitch` (lines 299-313): when enabled and
more than 2 frames were placed it computes the closure error and, past the
10px threshold, a per-image correction — but never applies either; the
offsets pass through unchanged.  The only possible side effect is the
`ZeroDivisionError` of `% canvas_width` when the canvas width is 0. -/
def sensorLoopClosure (enable : Bool) (offsets : List ℤ) (lastAngle inc ppd : ℚ)
    (cw w : ℤ) : Except PyErr (List ℤ) :=
  if enable = true ∧ offsets.length > 2 then
    if cw = 0 then .error .zeroDivisionError
    else
      let closureError := sensorClosureError offsets lastAngle inc ppd cw w
      if 10 < |closureError| then
        let _correctionPerImage : ℚ := (closureError : ℚ) / (offsets.length : ℚ)
        .ok offsets
      else .ok offsets
  else .ok offsets

/-- Normalization (lines 315-322): divide by the weight where it is
positive, then `np.clip(canvas, 0, 255).astype(np.uint8)` everywhere. -/
def sensorNormalize (h cwN : ℕ) (cv : Canvas) : Image :=
  ⟨h, cwN, fun y x c =>
    toU8 (if 0 < cv.wt y x then cv.pix y x c / cv.wt y x else cv.pix y x c)⟩

/-- Crop to the valid region (lines 324-329): bounding rectangle of the
pixels with weight > 0.1; when no such pixel exists `cv2.findNonZero`
returns `None` and the image is left uncropped. -/
def sensorCrop (h cwN : ℕ) (wt : ℕ → ℕ → ℚ) (res : Image) : Image :=
  let cols := (List.range cwN).filter (fun x => (List.range h).any (fun y => decide (wt y x > 1/10)))
  let rows := (List.range h).filter (fun y => (List.range cwN).any (fun x => decide (wt y x > 1/10)))
  match cols.min?, cols.max?, rows.min?, rows.max? with
  | some x0, some x1, some y0, some y1 =>
    ⟨y1 - y0 + 1, x1 - x0 + 1, fun y x c => res.pix (y0 + y) (x0 + x) c⟩
  | _, _, _, _ => res

/-- The statistics value returned by `SensorAidedStitcher.stitch`: either the
`{'error': 'Need at least 2 images'}` dictionary, or the success statistics
(result dimensions, frame count, focal length, pixels per degree, debug
flag; `processing_time` is wall-clock and not modelled). -/
inductive SensorStats where
  | insufficient (msg : String)
  | success (width height imageCount : ℕ) (focalLength ppd : ℚ) (debugMode : Bool)
  deriving DecidableEq

/-- The loading loop of `stitch` (lines 188-202): paths in `sorted` order,
skipping paths that fail to decode and frames without an extractable
filename angle. -/
def sensorLoad (fs : String → Option Image) (paths : List String) : List (Image × ℚ) :=
  (stableSort strLeB paths).filterMap (fun p =>
    match fs p with
    | none => none
    | some img =>
      match extractAngleSA (basename p) with
      | none => none
      | some a => some (img, a))

/-- Canvas width (line 230): `int(pixels_per_degree * total_angle)` with the
span fixed at 360 degrees. -/
def sensorCanvasWidth (ppd : ℚ) : ℤ := pyInt (ppd * 360)

/-- Everything `stitch` does after loading succeeds with at least 2 frames
(lines 210-346): focal length from HFOV, cylindrical warp, pixels per degree
from the first angle increment, canvas allocation (raising on a negative
width), sequential placement, the (inert) loop-closure block, normalization
and cropping. -/
def sensorAssemble (ext : Ext) (cfg : SensorCfg) (data : List (Image × ℚ)) :
    Except PyErr (Image × SensorStats) :=
  match data with
  | [] => .error .indexError
  | (img0, a0) :: _ =>
    let h := img0.h
    let w := img0.w
    let focal := (w : ℚ) / (2 * ext.tanDeg (cfg.hfovDeg / 2))
    let warped := data.map (fun p => (cylWarp ext p.1 focal, p.2))
    let inc : ℚ :=
      match data with
      | _ :: (_, a1) :: _ => a1 - a0
      | _ => 25
    let ppd := focal * ext.tanDeg inc
    let cw := sensorCanvasWidth ppd
    if cw < 0 then .error .valueError
    else
      let cwN := cw.toNat
      let offsets := sensorOffsetsGo ext cfg.useFineTuning cfg.overlapSearchWidth ppd warped none
      (sensorPlaceAll cfg.debugMode cfg.blendWidth h w cwN
          ((warped.map Prod.fst).zip offsets)).bind (fun cv =>
        (sensorLoopClosure cfg.enableLoopClosure offsets ((data.getLastD (img0, a0)).2)
            inc ppd cw (w : ℤ)).bind (fun _ =>
          let res := sensorNormalize h cwN cv
          let cropped := sensorCrop h cwN cv.wt res
          .ok (cropped,
            SensorStats.success cropped.w cropped.h data.length focal ppd cfg.debugMode)))

/-- `SensorAidedStitcher.stitch` (lines 182-346).  The method installs no
exception handler, so a raised error is returned as `Except.error`; fewer
than 2 loaded frames return `(None, {'error': 'Need at least 2 images'})`. -/
def sensorStitch (ext : Ext) (cfg : SensorCfg) (fs : String → Option Image)
    (paths : List String) : Except PyErr (Option Image × SensorStats) :=
  let data := sensorLoad fs paths
  if data.length < 2 then .ok (none, .insufficient "Need at least 2 images")
  else (sensorAssemble ext cfg data).map (fun r => (some r.1, r.2))

/-! ## Simple angle stitcher (simple_angle_stitcher.py) -/

/-- Constructor parameters of `SimpleAngleStitcher` with their defaults. -/
structure SimpleCfg where
  hfov : ℚ := 54
  blendWidth : ℕ := 50

/-- `SimpleAngleStitcher._extract_angle`: `re.search(r'angle_(\d+)', Path(path).name)`
with default `0.0` when nothing matches. -/
def extractAngleSimple (path : String) : ℚ :=
  match angleScan (fun c => c = '_') (basename path).toList with
  | some n => (n : ℚ)
  | none => 0

/-- The feather mask of lines 158-166: ones; the left loop writes column
`x < min blendWidth w` with `x / blendWidth`; the right loop overwrites
column `x ∈ [max 0 (w - blendWidth), w)` with `(w - x) / blendWidth`.
Both loop ranges are clamped, so no index is out of bounds. -/
def maskSimple (bw w j : ℕ) : ℚ :=
  if w - bw ≤ j ∧ j < w ∧ 0 < bw then ((w - j : ℕ) : ℚ) / bw
  else if j < min bw w then (j : ℚ) / bw
  else 1

/-- Canvas x-position of a frame (lines 150-153):
`int(angle * pixels_per_degree) % canvas_width`. -/
def simpleXPos (a ppd : ℚ) (cw : ℤ) : ℤ := pyInt (a * ppd) % cw

/-- The statistics dictionary of `SimpleAngleStitcher.stitch`.  Keys that are
only set later in the run are optional; `processing_time` and the megabyte
size derived from `nbytes` are reproduced from the shape. -/
structure SimpleStats where
  numImages : ℕ
  hfov : ℚ
  blendWidth : ℕ
  status : String
  errorMsg : Option String
  panoShape : Option (ℕ × ℕ × ℕ)
  panoSizeMb : Option ℚ
  canvasWidth : Option ℤ
  ppd : Option ℚ
  deriving DecidableEq

/-- The statistics as first initialized (lines 83-88), with the status field
replaced on failure and an error message added by the `except` handler. -/
def simpleFailStats (cfg : SimpleCfg) (n : ℕ) (msg : Option String) : SimpleStats :=
  ⟨n, cfg.hfov, cfg.blendWidth, "failed", msg, none, none, none, none⟩

/-- The statistics on success (lines 183-187). -/
def simpleSuccessStats (cfg : SimpleCfg) (n h : ℕ) (cw : ℤ) (ppd : ℚ) : SimpleStats :=
  ⟨n, cfg.hfov, cfg.blendWidth, "success", none, some (h, cw.toNat, 3),
   some ((h * cw.toNat * 3 : ℕ) / (1048576 : ℚ)), some cw, some ppd⟩

/-- The loading loop (lines 95-102): paths in the given order, skipping
undecodable ones; every decoded frame gets an angle (possibly the 0 default). -/
def simpleLoad (fs : String → Option Image) (paths : List String) : List (Image × ℚ) :=
  paths.filterMap (fun p => (fs p).map (fun img => (img, extractAngleSimple p)))

/-- The sort key comparison of `images_data.sort(key=lambda x: x['angle'])`. -/
def simpleLeAngle (p q : Image × ℚ) : Bool := decide (p.2 ≤ q.2)

/-- Pixels per degree (line 134): `w / hfov` — the first frame's width over
the field of view (not the focal-length formula of the sensor-aided
stitcher). -/
def simplePpd (w : ℕ) (hfov : ℚ) : ℚ := (w : ℚ) / hfov

/-- Canvas width (line 136): `int(pixels_per_degree * 360.0)`. -/
def simpleCW (w : ℕ) (hfov : ℚ) : ℤ := pyInt (simplePpd w hfov * 360)

/-- Placement of one frame (lines 145-172), column by column with
wrap-around.  `h`/`w` are the first frame's dimensions.  A zero canvas
width raises `ZeroDivisionError` at the `%`; a column beyond the current
frame's width, or a broadcast-incompatible height, raises `ValueError`. -/
def simplePlaceFrame (bw h w : ℕ) (cw : ℤ) (ppd : ℚ) (cv : Canvas)
    (fr : Image × ℚ) : Except PyErr Canvas :=
  let img := fr.1
  if cw = 0 then .error .zeroDivisionError
  else
    let xPos := simpleXPos fr.2 ppd cw
    (List.range w).foldlM (fun (c : Canvas) (x : ℕ) =>
      let cx := ((xPos + (x : ℤ)) % cw).toNat
      if x < img.w ∧ (img.h = h ∨ img.h = 1) then
        .ok ⟨fun y X ch =>
               if X = cx then c.pix y X ch + img.pix (bidx img.h y) x ch * maskSimple bw w x
               else c.pix y X ch,
             fun y X => if X = cx then c.wt y X + maskSimple bw w x else c.wt y X⟩
      else (.error .valueError : Except PyErr Canvas)) cv

/-- Finalization (lines 176-180): zero weights are replaced by 1, the canvas
is divided by the weight map and cast to `uint8` (no clip). -/
def simpleFinal (h cwN : ℕ) (cv : Canvas) : Image :=
  ⟨h, cwN, fun y x c =>
    u8wrap (cv.pix y x c / (if cv.wt y x = 0 then 1 else cv.wt y x))⟩

/-- The cylindrical-warp pass (lines 124-130) over the sorted frames, with
the focal length computed from the first frame's width and the HFOV
(line 121). -/
def simpleWarped (ext : Ext) (cfg : SimpleCfg) (img0 : Image) (a0 : ℚ)
    (rest : List (Image × ℚ)) : List (Image × ℚ) :=
  ((img0, a0) :: rest).map
    (fun p => (cylWarp ext p.1 ((img0.w : ℚ) / (2 * ext.tanDeg (cfg.hfov / 2))), p.2))

/-- The placement loop (lines 143-173) over all warped frames. -/
def simplePlaceAll (bw h w : ℕ) (cw : ℤ) (ppd : ℚ) (frames : List (Image × ℚ)) :
    Except PyErr Canvas :=
  frames.foldlM (simplePlaceFrame bw h w cw ppd) canvas0

/-- The body of `SimpleAngleStitcher.stitch` inside the `try` block
(lines 90-192): load, guard, sort by angle, focal length (used only for the
warp), cylindrical warp, canvas allocation, per-frame placement,
normalization and statistics. -/
def simpleStitchRaw (ext : Ext) (cfg : SimpleCfg) (fs : String → Option Image)
    (paths : List String) : Except PyErr (Option Image × SimpleStats) :=
  let data := simpleLoad fs paths
  if data.length < 2 then .ok (none, simpleFailStats cfg paths.length none)
  else
    match stableSort simpleLeAngle data with
    | [] => .error .indexError
    | (img0, a0) :: rest =>
      let h := img0.h
      let w := img0.w
      let ppd := simplePpd w cfg.hfov
      let cw := simpleCW w cfg.hfov
      if cw < 0 then .error .valueError
      else
        (simplePlaceAll cfg.blendWidth h w cw ppd (simpleWarped ext cfg img0 a0 rest)).map
          (fun cv =>
            (some (simpleFinal h cw.toNat cv),
             simpleSuccessStats cfg paths.length h cw ppd))

/-- `SimpleAngleStitcher.stitch` (lines 68-202): the whole body runs inside
`try`, and the `except` handler converts any exception into
`(None, stats)` with status `failed` and the message of the exception. -/
def simpleStitch (ext : Ext) (cfg : SimpleCfg) (fs : String → Option Image)
    (paths : List String) : Option Image × SimpleStats :=
  match simpleStitchRaw ext cfg fs paths with
  | .ok r => r
  | .error e => (none, simpleFailStats cfg paths.length (some (pyErrMsg e)))

/-! ## Concrete instances used by witnesses and counterexamples -/

/-- A concrete external-capability oracle: `tanDeg` constantly 1, the warp
returning the source pixels, and a feature stage that finds nothing. -/
def extC : Ext := ⟨fun _ => 1, fun img _ => img.pix, fun _ _ => ⟨[], false, [], false, []⟩⟩

/-! ## Helper lemmas -/

theorem mem_insertSorted {α : Type} (le : α → α → Bool) (x : α) (l : List α) (b : α) :
    b ∈ insertSorted le x l ↔ b = x ∨ b ∈ l := by
  induction l with
  | nil => simp [insertSorted]
  | cons y ys ih =>
    by_cases h : le y x = true <;> simp [insertSorted, h, ih] <;> tauto

theorem pairwise_insertSorted {α : Type} (le : α → α → Bool)
    (total : ∀ a b, le a b = true ∨ le b a = true)
    (htr : ∀ a b c, le a b = true → le b c = true → le a c = true)
    (x : α) (l : List α) (hl : l.Pairwise (fun a b => le a b = true)) :
    (insertSorted le x l).Pairwise (fun a b => le a b = true) := by
  induction l with
  | nil => simp [insertSorted]
  | cons y ys ih =>
    rw [List.pairwise_cons] at hl
    by_cases h : le y x = true
    · rw [insertSorted, if_pos h, List.pairwise_cons]
      refine ⟨fun b hb => ?_, ih hl.2⟩
      rcases (mem_insertSorted le x ys b).mp hb with rfl | hb
      · exact h
      · exact hl.1 b hb
    · rw [insertSorted, if_neg h, List.pairwise_cons]
      have hx : le x y = true := (total x y).resolve_right (fun hc => h hc)
      refine ⟨fun b hb => ?_, List.pairwise_cons.mpr hl⟩
      rcases List.mem_cons.mp hb with rfl | hb
      · exact hx
      · exact htr x y b hx (hl.1 b hb)

theorem mem_stableSort {α : Type} (le : α → α → Bool) (l : List α) (b : α) :
    b ∈ stableSort le l ↔ b ∈ l := by
  suffices H : ∀ acc, b ∈ l.foldl (fun acc x => insertSorted le x acc) acc ↔ b ∈ acc ∨ b ∈ l by
    rw [stableSort, H []]; simp
  induction l with
  | nil => simp
  | cons y ys ih =>
    intro acc
    rw [List.foldl_cons, ih, mem_insertSorted]
    simp
    tauto

theorem pairwise_stableSort {α : Type} (le : α → α → Bool)
    (total : ∀ a b, le a b = true ∨ le b a = true)
    (htr : ∀ a b c, le a b = true → le b c = true → le a c = true)
    (l : List α) :
    (stableSort le l).Pairwise (fun a b => le a b = true) := by
  suffices H : ∀ acc, acc.Pairwise (fun a b => le a b = true) →
      (l.foldl (fun acc x => insertSorted le x acc) acc).Pairwise (fun a b => le a b = true) from
    H [] (by simp)
  induction l with
  | nil => intro acc h; simpa using h
  | cons y ys ih =>
    intro acc h
    exact ih _ (pairwise_insertSorted le total htr y acc h)

theorem pyInt_le_of_nonneg {q : ℚ} (h : 0 ≤ q) : (pyInt q : ℚ) ≤ q := by
  rw [pyInt, if_pos h]; exact Int.floor_le q

theorem pyInt_nonneg {q : ℚ} (h : 0 ≤ q) : 0 ≤ pyInt q := by
  rw [pyInt, if_pos h]; exact Int.floor_nonneg.mpr h

theorem le_pyInt_of_neg {q : ℚ} (h : ¬ 0 ≤ q) : q ≤ (pyInt q : ℚ) := by
  rw [pyInt, if_neg h]; exact Int.le_ceil q

theorem pyInt_nonpos {q : ℚ} (h : ¬ 0 ≤ q) : pyInt q ≤ 0 := by
  rw [pyInt, if_neg h]
  exact Int.ceil_le.mpr (by push_cast; linarith [not_le.mp h])

theorem maskSensor_zero (w j : ℕ) : maskSensor 0 w j = 1 := by
  rw [maskSensor]
  simp

theorem bidx_of_lt {n i : ℕ} (h : i < n) : bidx n i = i := by
  rw [bidx]
  split
  · omega
  · rfl

/-! ## Claim C1: loop closure -/

/-- C1 (counterexample): on a concrete closed-loop run (3 placements,
pixels-per-degree 10, canvas 3600, frame width 240) the closure error is
910 px, well past the 10 px threshold, yet the loop-closure step returns the
offsets unchanged, so after "correction" the residual closure error is still
910, not zero. -/
theorem loopClosure_error_not_zeroed_cex :
    sensorLoopClosure true [0, 100, 200] 90 45 10 3600 240 = .ok [0, 100, 200] ∧
    sensorClosureError [0, 100, 200] 90 45 10 3600 240 = 910 ∧
    (10 : ℤ) < |(910 : ℤ)| ∧ (910 : ℤ) ≠ 0 := by
  refine ⟨by decide, by decide, by decide, by decide⟩

/-- C1 (amended): for every enabled closed-loop stitch the loop-closure
block only computes the closure error and a per-image correction; the
placement offsets are returned unchanged (and the residual closure error is
therefore the original one, not zero).  The `cw ≠ 0` hypothesis excludes the
`ZeroDivisionError` of `% canvas_width`. -/
theorem loopClosure_returns_offsets_unchanged (enable : Bool) (offsets : List ℤ)
    (lastAngle inc ppd : ℚ) (cw w : ℤ) (hcw : cw ≠ 0) :
    sensorLoopClosure enable offsets lastAngle inc ppd cw w = .ok offsets := by
  rw [sensorLoopClosure]
  split
  · dsimp only
    split <;> rfl
  · rfl

/-- Witness for `loopClosure_returns_offsets_unchanged` at a concrete
closed-loop input with a large closure error. -/
theorem loopClosure_returns_offsets_unchanged_witness :
    (720 : ℤ) ≠ 0 ∧
    sensorLoopClosure true [0, 90, 180, 270] 135 45 2 720 4 = .ok [0, 90, 180, 270] :=
  ⟨by decide, loopClosure_returns_offsets_unchanged true [0, 90, 180, 270] 135 45 2 720 4
    (by decide)⟩

/-! ## Claim C9: placement determinism -/

theorem sensorOffsetsGo_no_ft (ext : Ext) (osw ppd : ℚ) (frames : List (Image × ℚ)) :
    ∀ prev, sensorOffsetsGo ext false osw ppd frames prev
      = frames.map (fun p => pyInt (p.2 * ppd)) := by
  induction frames with
  | nil => intro prev; rfl
  | cons f rest ih =>
    intro prev
    obtain ⟨img, a⟩ := f
    cases prev with
    | none => simp [sensorOffsetsGo, ih]
    | some pr => simp [sensorOffsetsGo, ih]

/-- C9: with fine-tuning disabled the sequential placement is deterministic:
it does not depend on the external feature/trigonometry oracle (nor on the
overlap-search width) at all, so repeated runs agree, and every offset is
exactly `int(bearing * pixels_per_degree)`. -/
theorem placement_deterministic (ext ext2 : Ext) (frames : List (Image × ℚ)) (osw osw2 ppd : ℚ) :
    sensorOffsetsGo ext false osw ppd frames none
      = frames.map (fun p => pyInt (p.2 * ppd)) ∧
    sensorOffsetsGo ext false osw ppd frames none
      = sensorOffsetsGo ext2 false osw2 ppd frames none := by
  refine ⟨sensorOffsetsGo_no_ft ext osw ppd frames none, ?_⟩
  rw [sensorOffsetsGo_no_ft ext osw ppd frames none,
    sensorOffsetsGo_no_ft ext2 osw2 ppd frames none]

/-! ## Claim C4: refinement clamp -/

/-- C4: for every feature-stage outcome (no descriptors, too few keypoints,
too few ratio-test survivors, or a full median refinement) the offset
returned by `_find_constrained_offset` differs from the expected offset by
at most `0.2 * |expected|`: the fallback branches return the expected offset
itself and the median branch is clamped to
`expected ± int(expected * 0.2)`. -/
theorem clampRefine_close (e : ℤ) (m : ℚ) :
    |((clampRefine e m : ℤ) : ℚ) - (e : ℚ)| ≤ |(e : ℚ)| / 5 := by
  rw [clampRefine]
  set r := pyInt m with hr
  set M := pyInt ((e : ℚ) * (1 / 5)) with hM
  by_cases he : 0 ≤ ((e : ℚ) * (1 / 5))
  · have hM0 : 0 ≤ M := pyInt_nonneg he
    have hMle : (M : ℚ) ≤ (e : ℚ) * (1 / 5) := pyInt_le_of_nonneg he
    have he0 : (0 : ℚ) ≤ (e : ℚ) := by nlinarith
    have h1 : e - M ≤ npClip r (e - M) (e + M) := by
      rw [npClip]
      have : e - M ≤ max r (e - M) := le_max_right _ _
      omega
    have h2 : npClip r (e - M) (e + M) ≤ e + M := min_le_right _ _
    have h1q : ((e : ℚ) - (M : ℚ)) ≤ ((npClip r (e - M) (e + M) : ℤ) : ℚ) := by
      push_cast at h1 ⊢
      exact_mod_cast h1
    have h2q : ((npClip r (e - M) (e + M) : ℤ) : ℚ) ≤ (e : ℚ) + (M : ℚ) := by
      push_cast at h2 ⊢
      exact_mod_cast h2
    rw [abs_of_nonneg he0, abs_le]
    constructor <;> nlinarith
  · have hMle : (e : ℚ) * (1 / 5) ≤ (M : ℚ) := le_pyInt_of_neg he
    have hM0 : M ≤ 0 := pyInt_nonpos he
    have he0 : (e : ℚ) < 0 := by nlinarith
    have hclip : npClip r (e - M) (e + M) = e + M := by
      rw [npClip]
      have h1 : e + M ≤ e - M := by omega
      have h2 : e - M ≤ max r (e - M) := le_max_right _ _
      omega
    have hMq : ((M : ℤ) : ℚ) ≤ 0 := by exact_mod_cast hM0
    rw [hclip]
    push_cast
    rw [abs_of_neg he0, abs_le]
    constructor <;> nlinarith

/-- C4: for every feature-stage outcome (no descriptors, too few keypoints,
too few ratio-test survivors, or a full median refinement) the offset
returned by `_find_constrained_offset` differs from the expected offset by
at most `0.2 * |expected|`: the fallback branches return the expected offset
itself and the median branch is clamped to
`expected ± int(expected * 0.2)`. -/
theorem refinement_clamp (ext : Ext) (osw : ℚ) (img1 img2 : Image) (e : ℤ) :
    |((findConstrainedOffset ext osw img1 img2 e : ℤ) : ℚ) - (e : ℚ)| ≤ |(e : ℚ)| / 5 := by
  have habs : (0 : ℚ) ≤ |(e : ℚ)| / 5 := by positivity
  simp only [findConstrainedOffset]
  split
  · simpa using habs
  · split
    · simpa using habs
    · exact clampRefine_close e _

/-! ## Claim C6: ordering by bearing -/

theorem simpleLeAngle_total (p q : Image × ℚ) :
    simpleLeAngle p q = true ∨ simpleLeAngle q p = true := by
  simp only [simpleLeAngle, decide_eq_true_eq]
  exact le_total p.2 q.2

theorem simpleLeAngle_trans (p q r : Image × ℚ) (h1 : simpleLeAngle p q = true)
    (h2 : simpleLeAngle q r = true) : simpleLeAngle p r = true := by
  simp only [simpleLeAngle, decide_eq_true_eq] at h1 h2 ⊢
  exact le_trans h1 h2

/-- C6 (amended): the simple angle stitcher does sort the loaded frames by
ascending bearing before placement (the sensor-aided one does not — see the
counterexample). -/
theorem simple_frames_sorted_by_bearing (fs : String → Option Image) (paths : List String) :
    (stableSort simpleLeAngle (simpleLoad fs paths)).Pairwise (fun p q => p.2 ≤ q.2) := by
  have h := pairwise_stableSort simpleLeAngle simpleLeAngle_total simpleLeAngle_trans
    (simpleLoad fs paths)
  exact h.imp (fun hab => by simpa [simpleLeAngle, decide_eq_true_eq] using hab)

/-- C6 (counterexample): the sensor-aided stitcher iterates `sorted(image_paths)`
— lexicographic path order — and never sorts by bearing: with the two
decodable inputs `angle_100.jpg`, `angle_90.jpg` the accepted sequence has
bearings `[100, 90]`, which is not ascending. -/
theorem sensor_not_sorted_by_bearing_cex :
    (sensorLoad (fun _ => some ⟨2, 4, fun _ _ _ => 10⟩)
        ["angle_100.jpg", "angle_90.jpg"]).map Prod.snd = [100, 90] ∧
    ¬ ([(100 : ℚ), 90].Pairwise (fun a b => a ≤ b)) := by
  constructor
  · rfl
  · intro h
    have := (List.pairwise_cons.mp h).1 90 (by simp)
    norm_num at this

/-! ## Claim C10: frames without an extractable angle in the simple stitcher -/

theorem extractAngleSimple_nonneg (p : String) : 0 ≤ extractAngleSimple p := by
  rw [extractAngleSimple]
  split
  · positivity
  · exact le_refl 0

theorem simpleLoad_snd_nonneg (fs : String → Option Image) (paths : List String) :
    ∀ q ∈ simpleLoad fs paths, 0 ≤ q.2 := by
  intro q hq
  rw [simpleLoad, List.mem_filterMap] at hq
  obtain ⟨p, _, hp⟩ := hq
  cases hfs : fs p with
  | none => rw [hfs] at hp; cases hp
  | some img =>
    rw [hfs] at hp
    have hq : q = (img, extractAngleSimple p) := by
      have : some (img, extractAngleSimple p) = some q := hp
      exact (Option.some_inj.mp this).symm
    rw [hq]
    exact extractAngleSimple_nonneg p

/-- C10: a decoded frame whose filename contains no `angle_\d+` pattern is
not rejected by the simple angle stitcher: it receives the default bearing
0.0, appears in the sorted sequence, the head of the sorted sequence has
bearing 0 (all extracted bearings are nonnegative), and its canvas position
is `int(0 * ppd) % cw = 0` — on top of any genuine 0-degree frame. -/
theorem simple_no_angle_frame_kept (fs : String → Option Image) (paths : List String)
    (p : String) (img : Image) (hp : p ∈ paths) (hfs : fs p = some img)
    (hna : angleScan (fun c => c = '_') (basename p).toList = none) :
    extractAngleSimple p = 0 ∧
    (img, (0 : ℚ)) ∈ stableSort simpleLeAngle (simpleLoad fs paths) ∧
    (∃ q rest, stableSort simpleLeAngle (simpleLoad fs paths) = q :: rest ∧ q.2 = 0) ∧
    (∀ ppd : ℚ, ∀ cw : ℤ, cw ≠ 0 → simpleXPos 0 ppd cw = 0) := by
  have hex : extractAngleSimple p = 0 := by rw [extractAngleSimple, hna]
  have hmem : (img, (0 : ℚ)) ∈ simpleLoad fs paths := by
    rw [simpleLoad, List.mem_filterMap]
    exact ⟨p, hp, by rw [hfs]; simp [hex]⟩
  have hmem' : (img, (0 : ℚ)) ∈ stableSort simpleLeAngle (simpleLoad fs paths) :=
    (mem_stableSort _ _ _).mpr hmem
  refine ⟨hex, hmem', ?_, ?_⟩
  · cases hs : stableSort simpleLeAngle (simpleLoad fs paths) with
    | nil => rw [hs] at hmem'; simp at hmem'
    | cons q rest =>
      refine ⟨q, rest, rfl, le_antisymm ?_ ?_⟩
      · rw [hs] at hmem'
        rcases List.mem_cons.mp hmem' with hq | hq
        · rw [← hq]
        · have hpw := pairwise_stableSort simpleLeAngle simpleLeAngle_total
            simpleLeAngle_trans (simpleLoad fs paths)
          rw [hs, List.pairwise_cons] at hpw
          have := hpw.1 _ hq
          simpa [simpleLeAngle, decide_eq_true_eq] using this
      · have : q ∈ stableSort simpleLeAngle (simpleLoad fs paths) := by
          rw [hs]; exact List.mem_cons_self q rest
        exact simpleLoad_snd_nonneg fs paths q ((mem_stableSort _ _ _).mp this)
  · intro ppd cw _
    rw [simpleXPos]
    norm_num [pyInt]

/-- Witness for `simple_no_angle_frame_kept`: one decodable path whose name
has no angle pattern. -/
theorem simple_no_angle_frame_kept_witness :
    "photo.jpg" ∈ ["photo.jpg"] ∧
    (extractAngleSimple "photo.jpg" = 0 ∧
      ((⟨1, 1, fun _ _ _ => 9⟩ : Image), (0 : ℚ)) ∈ stableSort simpleLeAngle
        (simpleLoad (fun q => if q = "photo.jpg" then some ⟨1, 1, fun _ _ _ => 9⟩ else none)
          ["photo.jpg"]) ∧
      (∃ q rest, stableSort simpleLeAngle
          (simpleLoad (fun q => if q = "photo.jpg" then some ⟨1, 1, fun _ _ _ => 9⟩ else none)
            ["photo.jpg"]) = q :: rest ∧ q.2 = 0) ∧
      (∀ ppd : ℚ, ∀ cw : ℤ, cw ≠ 0 → simpleXPos 0 ppd cw = 0)) :=
  ⟨by decide, simple_no_angle_frame_kept _ _ "photo.jpg" _ (by decide) (by rfl) (by decide)⟩

/-! ## Claim C3: sensor-aided strategy on frames without bearings -/

/-- C3 (counterexample): three decodable frames whose names carry no angle
are silently skipped by the loading loop; the run then fails the frame-count
guard and returns `(None, {'error': 'Need at least 2 images'})` — the
insufficient-images record, not a missing-bearing classification. -/
theorem sensor_no_bearings_cex :
    sensorStitch extC {} (fun _ => some ⟨2, 2, fun _ _ _ => 5⟩)
      ["a.jpg", "b.jpg", "c.jpg"] = .ok (none, .insufficient "Need at least 2 images") := by
  rfl

/-- C3 (amended): when no supplied path yields an extractable bearing, every
frame is skipped during loading and the sensor-aided stitcher returns the
insufficient-images failure value `(None, {'error': 'Need at least 2 images'})`
(there is no missing-bearing classification in the code). -/
theorem sensor_no_bearings_insufficient (ext : Ext) (cfg : SensorCfg)
    (fs : String → Option Image) (paths : List String)
    (h : ∀ p ∈ paths, extractAngleSA (basename p) = none) :
    sensorStitch ext cfg fs paths = .ok (none, .insufficient "Need at least 2 images") := by
  have hload : sensorLoad fs paths = [] := by
    rw [sensorLoad, List.filterMap_eq_nil_iff]
    intro p hp
    have hp' : p ∈ paths := (mem_stableSort _ _ _).mp hp
    cases hfs : fs p with
    | none => rfl
    | some img => rw [h p hp']
  rw [sensorStitch, hload]
  rfl

/-- Witness for `sensor_no_bearings_insufficient` at two decodable but
angle-free paths. -/
theorem sensor_no_bearings_insufficient_witness :
    (∀ p ∈ ["left.jpg", "right.jpg"], extractAngleSA (basename p) = none) ∧
    sensorStitch extC {} (fun _ => some ⟨1, 1, fun _ _ _ => 3⟩) ["left.jpg", "right.jpg"]
      = .ok (none, .insufficient "Need at least 2 images") :=
  ⟨by decide, sensor_no_bearings_insufficient extC {} _ _ (by decide)⟩

/-! ## Claim C8: fewer than 2 valid frames -/

/-- C8 (counterexample): the failure returned by the simple angle stitcher
for a single valid frame carries no insufficient-frames classification: its
record is only the generic `status = 'failed'` with no error message and no
kind field — the very same status an unrelated internal failure (a
broadcast `ValueError` from mismatched frame heights) also produces.  The
claim's "insufficient-frames classification" for every strategy is
therefore false on the code. -/
theorem simple_insufficient_frames_unclassified_cex :
    simpleStitch extC {}
      (fun p => if p = "angle_10.jpg" then some ⟨1, 1, fun _ _ _ => 4⟩ else none)
      ["angle_10.jpg", "missing.jpg"] = (none, simpleFailStats {} 2 none) ∧
    (simpleFailStats {} 2 none).status = "failed" ∧
    (simpleFailStats {} 2 none).errorMsg = none ∧
    (simpleStitch extC {}
      (fun p => if p = "angle_0.jpg" then some ⟨2, 1, fun _ _ _ => 10⟩
                else if p = "angle_5.jpg" then some ⟨3, 1, fun _ _ _ => 10⟩ else none)
      ["angle_0.jpg", "angle_5.jpg"]).2.status = "failed" := by
  refine ⟨by rfl, by rfl, by rfl, by rfl⟩

/-- C8 (amended): with fewer than 2 valid frames (decoded, and carrying a
bearing for the sensor-aided strategy) both angle-based strategies return
no mosaic and a failure record — but the classification differs: the
sensor-aided stitcher returns the `{'error': 'Need at least 2 images'}`
dictionary, while the simple stitcher's record is only the generic
status `failed` with no insufficient-frames kind. -/
theorem insufficient_frames_failure (ext : Ext) (scfg : SensorCfg) (ccfg : SimpleCfg)
    (fs : String → Option Image) (paths : List String)
    (h1 : (sensorLoad fs paths).length < 2) (h2 : (simpleLoad fs paths).length < 2) :
    sensorStitch ext scfg fs paths = .ok (none, .insufficient "Need at least 2 images") ∧
    simpleStitch ext ccfg fs paths = (none, simpleFailStats ccfg paths.length none) := by
  constructor
  · rw [sensorStitch]
    rw [if_pos h1]
  · have hraw : simpleStitchRaw ext ccfg fs paths
        = .ok (none, simpleFailStats ccfg paths.length none) := by
      rw [simpleStitchRaw]
      rw [if_pos h2]
    rw [simpleStitch, hraw]

/-- Witness for `insufficient_frames_failure`: a single decodable frame with
a bearing. -/
theorem insufficient_frames_failure_witness :
    (sensorLoad (fun q => if q = "angle_10.jpg" then some ⟨1, 1, fun _ _ _ => 4⟩ else none)
        ["angle_10.jpg"]).length < 2 ∧
    (simpleLoad (fun q => if q = "angle_10.jpg" then some ⟨1, 1, fun _ _ _ => 4⟩ else none)
        ["angle_10.jpg"]).length < 2 ∧
    (sensorStitch extC {} (fun q => if q = "angle_10.jpg" then some ⟨1, 1, fun _ _ _ => 4⟩ else none)
        ["angle_10.jpg"] = .ok (none, .insufficient "Need at least 2 images") ∧
      simpleStitch extC {} (fun q => if q = "angle_10.jpg" then some ⟨1, 1, fun _ _ _ => 4⟩ else none)
        ["angle_10.jpg"] = (none, simpleFailStats {} 1 none)) :=
  ⟨by decide, by decide,
    insufficient_frames_failure extC {} {} _ _ (by decide) (by decide)⟩

/-! ## Claim C2: exceptions at the strategy boundary -/

theorem sensorPlaceFrame_error_of_bad_height (debug : Bool) (bw h w cwN : ℕ) (cv : Canvas)
    (img : Image) (ax : ℤ) (h1 : img.h ≠ h) (h2 : img.h ≠ 1) (h3 : h ≠ 1) :
    ∃ e, sensorPlaceFrame debug bw h w cwN cv (img, ax) = .error e := by
  simp only [sensorPlaceFrame]
  by_cases hd : debug
  · rw [if_pos hd, if_neg (by rintro ⟨h4 | h4, -⟩ <;> [exact h1 h4; exact h2 h4])]
    exact ⟨.valueError, rfl⟩
  · rw [if_neg hd]
    by_cases hwb : w < bw
    · rw [if_pos hwb]
      exact ⟨.indexError, rfl⟩
    · rw [if_neg hwb]
      have hb : bdim img.h h = none := by
        rw [bdim, if_neg h1, if_neg h2, if_neg h3]
      rw [hb]
      exact ⟨.valueError, rfl⟩

theorem isErr_bind {α β : Type} {x : Except PyErr α} (g : α → Except PyErr β)
    (h : isErr x = true) : isErr (x.bind g) = true := by
  cases x with
  | error e => rfl
  | ok a => simp [isErr] at h

theorem isErr_foldlM_second {α β : Type} (f : β → α → Except PyErr β) (c : β)
    (x1 x2 : α) (rest : List α) (h : ∀ b, ∃ e, f b x2 = .error e) :
    isErr ((x1 :: x2 :: rest).foldlM f c) = true := by
  rw [List.foldlM_cons]
  rcases hstep : f c x1 with e | c1
  · rfl
  · show isErr ((x2 :: rest).foldlM f c1) = true
    rw [List.foldlM_cons]
    obtain ⟨e2, he2⟩ := h c1
    rw [he2]
    rfl

/-- C2 (amended): `SimpleAngleStitcher.stitch` runs inside `try`/`except` and
converts every internal exception into a `(None, stats-with-status-failed)`
value, but `SensorAidedStitcher.stitch` installs no handler: whenever the
second accepted frame's height differs from the first's (and neither is the
broadcastable height 1), the canvas accumulation raises a shape error that
crosses the strategy boundary uncaught — for every oracle, configuration and
trailing frame list. -/
theorem exception_handling_divergence :
    (∀ (ext : Ext) (cfg : SensorCfg) (i1 i2 : Image) (a1 a2 : ℚ) (rest : List (Image × ℚ)),
      i1.h ≠ i2.h → i2.h ≠ 1 → i1.h ≠ 1 →
      isErr (sensorAssemble ext cfg ((i1, a1) :: (i2, a2) :: rest)) = true) ∧
    (∀ (ext : Ext) (cfg : SimpleCfg) (fs : String → Option Image) (paths : List String)
      (e : PyErr), simpleStitchRaw ext cfg fs paths = .error e →
      simpleStitch ext cfg fs paths
        = (none, simpleFailStats cfg paths.length (some (pyErrMsg e)))) := by
  constructor
  · intro ext cfg i1 i2 a1 a2 rest hne h2 h1
    simp only [sensorAssemble, List.map_cons, sensorOffsetsGo, sensorPlaceAll,
      List.zip_cons_cons]
    split
    · rfl
    · apply isErr_bind
      apply isErr_foldlM_second
      intro b
      exact sensorPlaceFrame_error_of_bad_height cfg.debugMode cfg.blendWidth
        i1.h i1.w _ b
        (cylWarp ext i2 ((i1.w : ℚ) / (2 * ext.tanDeg (cfg.hfovDeg / 2)))) _ hne.symm h2 h1
  · intro ext cfg fs paths e h
    rw [simpleStitch, h]

/-- Witness for `exception_handling_divergence` at concrete inputs: two
decodable, bearing-carrying frames of heights 2 and 3 make the sensor-aided
assembly raise, and two frames of heights 2 and 3 make the simple stitcher
catch a `ValueError` internally. -/
theorem exception_handling_divergence_witness :
    isErr (sensorAssemble extC { blendWidth := 0, useFineTuning := false }
      [((⟨2, 4, fun _ _ _ => 10⟩ : Image), 0), ((⟨3, 4, fun _ _ _ => 100⟩ : Image), 45)])
      = true ∧
    simpleStitch extC {}
      (fun p => if p = "angle_0.jpg" then some ⟨2, 1, fun _ _ _ => 10⟩
                else if p = "angle_5.jpg" then some ⟨3, 1, fun _ _ _ => 10⟩ else none)
      ["angle_0.jpg", "angle_5.jpg"]
      = (none, simpleFailStats {} 2 (some (pyErrMsg .valueError))) :=
  ⟨exception_handling_divergence.1 extC { blendWidth := 0, useFineTuning := false }
      ⟨2, 4, fun _ _ _ => 10⟩ ⟨3, 4, fun _ _ _ => 100⟩ 0 45 []
      (by decide) (by decide) (by decide),
    exception_handling_divergence.2 extC {}
      (fun p => if p = "angle_0.jpg" then some ⟨2, 1, fun _ _ _ => 10⟩
                else if p = "angle_5.jpg" then some ⟨3, 1, fun _ _ _ => 10⟩ else none)
      ["angle_0.jpg", "angle_5.jpg"] .valueError (by rfl)⟩

/-- C2 (counterexample): a full `SensorAidedStitcher.stitch` call on two
decodable, bearing-carrying frames of different heights (2 and 3) returns an
uncaught `ValueError` — an exception crossing the strategy boundary instead
of a failure value. -/
theorem sensor_exception_escapes_cex :
    sensorStitch extC { blendWidth := 0, useFineTuning := false }
      (fun p => if p = "angle_0.jpg" then some ⟨2, 4, fun _ _ _ => 10⟩
                else if p = "angle_45.jpg" then some ⟨3, 4, fun _ _ _ => 100⟩ else none)
      ["angle_0.jpg", "angle_45.jpg"] = .error .valueError := by
  rfl

/-! ## Claim C5: the compositor at blend width 0 -/

theorem sensorPlaceFrame_zero_ok (h w cwN : ℕ) (cv : Canvas) (img : Image) (ax : ℤ)
    (hh : img.h = h) (hw : img.w = w) (hax0 : 0 ≤ ax) (hax1 : ax + (w : ℤ) ≤ (cwN : ℤ)) :
    ∃ cv', sensorPlaceFrame false 0 h w cwN cv (img, ax) = .ok cv' ∧
      (∀ y X c, y < h →
        cv'.pix y X c = (if ax.toNat ≤ X ∧ X < ax.toNat + w
          then cv.pix y X c + img.pix y (X - ax.toNat) c else cv.pix y X c)) ∧
      (∀ y X, cv'.wt y X = (if ax.toNat ≤ X ∧ X < ax.toNat + w
          then cv.wt y X + 1 else cv.wt y X)) := by
  have hxend : min (ax + (w : ℤ)) (cwN : ℤ) = ax + w := min_eq_left hax1
  have hs : pyResolve cwN ax = ax.toNat := by
    rw [pyResolve, if_neg (by omega)]
    exact Nat.min_eq_left (by omega)
  have he : pyResolve cwN (ax + (w : ℤ)) = ax.toNat + w := by
    rw [pyResolve, if_neg (by omega)]
    have h1 : (ax + (w : ℤ)).toNat = ax.toNat + w := by omega
    rw [h1]
    exact Nat.min_eq_left (by omega)
  have himgW : ax + (w : ℤ) - ax = (w : ℤ) := by ring
  have hk : pyResolve img.w (w : ℤ) = w := by
    rw [pyResolve, if_neg (by omega), hw]
    simp
  have hkw : pyResolve w (w : ℤ) = w := by
    rw [pyResolve, if_neg (by omega)]
    simp
  have hL : ax.toNat + w - ax.toNat = w := by omega
  have hbh : bdim img.h h = some h := by rw [hh, bdim, if_pos rfl]
  have hbk : bdim w w = some w := by rw [bdim, if_pos rfl]
  simp only [sensorPlaceFrame, hxend, himgW, hs, he, hk, hkw, hL, hbh, hbk]
  rw [if_neg (by simp), if_neg (Nat.not_lt_zero w)]
  rw [if_pos (by simp)]
  refine ⟨_, rfl, ?_, ?_⟩
  · intro y X c hy
    dsimp only
    by_cases hin : ax.toNat ≤ X ∧ X < ax.toNat + w
    · rw [if_pos hin, if_pos hin]
      have hyy : bidx h y = y := bidx_of_lt hy
      have hXX : bidx w (X - ax.toNat) = X - ax.toNat := bidx_of_lt (by omega)
      rw [hyy, hh, hyy, hXX, hXX, maskSensor_zero, mul_one]
    · rw [if_neg hin, if_neg hin]
  · intro y X
    dsimp only
    by_cases hin : ax.toNat ≤ X ∧ X < ax.toNat + w
    · rw [if_pos hin, if_pos hin]
      have hXX : bidx w (X - ax.toNat) = X - ax.toNat := bidx_of_lt (by omega)
      rw [hXX, maskSensor_zero]
    · rw [if_neg hin, if_neg hin]

theorem sensorPlaceAll_zero_miss (h w cwN : ℕ) (frames : List (Image × ℤ)) (y X : ℕ)
    (hy : y < h)
    (hfr : ∀ f ∈ frames, f.1.h = h ∧ f.1.w = w ∧ 0 ≤ f.2 ∧ f.2 + (w : ℤ) ≤ (cwN : ℤ))
    (hmiss : ∀ f ∈ frames, ¬ (f.2 ≤ (X : ℤ) ∧ (X : ℤ) < f.2 + (w : ℤ))) :
    ∀ cv, ∃ cv', frames.foldlM (sensorPlaceFrame false 0 h w cwN) cv = .ok cv' ∧
      (∀ c, cv'.pix y X c = cv.pix y X c) ∧ cv'.wt y X = cv.wt y X := by
  induction frames with
  | nil => exact fun cv => ⟨cv, rfl, fun c => rfl, rfl⟩
  | cons f rest ih =>
    intro cv
    obtain ⟨himg, hwi, h0, h1⟩ := hfr f (List.mem_cons_self f rest)
    obtain ⟨cv1, hcv1, hpix1, hwt1⟩ :=
      sensorPlaceFrame_zero_ok h w cwN cv f.1 f.2 himg hwi h0 h1
    obtain ⟨cv', hrest, hpix', hwt'⟩ :=
      ih (fun g hg => hfr g (List.mem_cons_of_mem f hg))
        (fun g hg => hmiss g (List.mem_cons_of_mem f hg)) cv1
    have hout : ¬ (f.2.toNat ≤ X ∧ X < f.2.toNat + w) := by
      have := hmiss f (List.mem_cons_self f rest)
      omega
    refine ⟨cv', ?_, ?_, ?_⟩
    · rw [List.foldlM_cons]
      have hfr1 : sensorPlaceFrame false 0 h w cwN cv (f.1, f.2) = .ok cv1 := hcv1
      rw [show (f.1, f.2) = f from rfl] at hfr1
      rw [hfr1]
      exact hrest
    · intro c
      rw [hpix' c, hpix1 y X c hy, if_neg hout]
    · rw [hwt', hwt1 y X, if_neg hout]

/-- C5 (amended): with `blendWidth = 0` the feather mask is identically 1,
so the compositor accumulates every covering frame with unit weight and the
finalized pixel is the *mean* of the contributions, not the last frame's
value; hard replacement holds only where the last-placed frame is the sole
contributor: at every canvas point covered by the last frame and missed by
all earlier frames, the normalized pixel equals the last frame's
(integer-valued, in-range) pixel exactly. -/
theorem blend_zero_hard_replace_only_single_cover (init : List (Image × ℤ)) (lastF : Image)
    (xl : ℤ) (h w cwN : ℕ) (y X : ℕ) (c : Fin 3) (n : ℕ)
    (hall : ∀ f ∈ init ++ [(lastF, xl)],
      f.1.h = h ∧ f.1.w = w ∧ 0 ≤ f.2 ∧ f.2 + (w : ℤ) ≤ (cwN : ℤ))
    (hy : y < h)
    (hX : xl.toNat ≤ X ∧ X < xl.toNat + w)
    (hmiss : ∀ f ∈ init, ¬ (f.2 ≤ (X : ℤ) ∧ (X : ℤ) < f.2 + (w : ℤ)))
    (hp : lastF.pix y (X - xl.toNat) c = (n : ℚ)) (hn : n ≤ 255) :
    (∀ w' j, maskSensor 0 w' j = 1) ∧
    ∃ cv, sensorPlaceAll false 0 h w cwN (init ++ [(lastF, xl)]) = .ok cv ∧
      (sensorNormalize h cwN cv).pix y X c = (n : ℚ) := by
  refine ⟨fun w' j => maskSensor_zero w' j, ?_⟩
  obtain ⟨hlh, hlw, hl0, hl1⟩ := hall (lastF, xl) (by simp)
  obtain ⟨cv1, hfold1, hpix1, hwt1⟩ :=
    sensorPlaceAll_zero_miss h w cwN init y X hy
      (fun g hg => hall g (List.mem_append_left _ hg)) hmiss canvas0
  obtain ⟨cv2, hstep, hpix2, hwt2⟩ :=
    sensorPlaceFrame_zero_ok h w cwN cv1 lastF xl hlh hlw hl0 hl1
  refine ⟨cv2, ?_, ?_⟩
  · rw [sensorPlaceAll, List.foldlM_append, hfold1]
    show [(lastF, xl)].foldlM (sensorPlaceFrame false 0 h w cwN) cv1 = .ok cv2
    rw [List.foldlM_cons, hstep]
    rfl
  · have hpv : cv2.pix y X c = (n : ℚ) := by
      rw [hpix2 y X c hy, if_pos hX, hpix1 c]
      show (canvas0.pix y X c) + lastF.pix y (X - xl.toNat) c = (n : ℚ)
      rw [hp]
      show (0 : ℚ) + (n : ℚ) = (n : ℚ)
      ring
    have hwv : cv2.wt y X = 1 := by
      rw [hwt2 y X, if_pos hX, hwt1]
      show (canvas0.wt y X) + 1 = 1
      show (0 : ℚ) + 1 = 1
      ring
    show toU8 (if 0 < cv2.wt y X then cv2.pix y X c / cv2.wt y X else cv2.pix y X c) = (n : ℚ)
    rw [hpv, hwv, if_pos (by norm_num), div_one, toU8]
    have h1 : max ((n : ℚ)) 0 = (n : ℚ) := max_eq_left (by positivity)
    have h2 : min ((n : ℚ)) 255 = (n : ℚ) := min_eq_left (by exact_mod_cast hn)
    rw [h1, h2, pyInt, if_pos (by positivity)]
    rw [Int.floor_natCast]
    simp

/-- Witness for `blend_zero_hard_replace_only_single_cover`: one 1×1 frame
of value 7 placed at offset 0 on a width-1 canvas. -/
theorem blend_zero_hard_replace_only_single_cover_witness :
    ((⟨1, 1, fun _ _ _ => 7⟩ : Image).pix 0 (0 - (0 : ℤ).toNat) 0 = ((7 : ℕ) : ℚ)) ∧
    ((∀ w' j, maskSensor 0 w' j = 1) ∧
      ∃ cv, sensorPlaceAll false 0 1 1 1 ([] ++ [((⟨1, 1, fun _ _ _ => 7⟩ : Image), 0)]) = .ok cv ∧
        (sensorNormalize 1 1 cv).pix 0 0 0 = ((7 : ℕ) : ℚ)) :=
  ⟨by norm_num,
    blend_zero_hard_replace_only_single_cover [] ⟨1, 1, fun _ _ _ => 7⟩ 0 1 1 1 0 0 0 7
      (by intro f hf; simp at hf; rw [hf]; exact ⟨rfl, rfl, by norm_num, by norm_num⟩)
      (by norm_num) (by constructor <;> norm_num) (by intro f hf; simp at hf)
      (by norm_num) (by norm_num)⟩

/-- C5 (counterexample): with `blendWidth = 0` and two overlapping 1×2
frames of constant values 10 and 100 placed at offsets 0 and 1, the
finalized pixel in the overlap column of the last-placed frame's region is
the average 55, not the last frame's value 100 — the compositor does not
degenerate to hard replacement. -/
theorem blend_zero_not_hard_replace_cex :
    (sensorPlaceAll false 0 1 2 4
        [((⟨1, 2, fun _ _ _ => 10⟩ : Image), 0), ((⟨1, 2, fun _ _ _ => 100⟩ : Image), 1)]).map
      (fun cv => (sensorNormalize 1 4 cv).pix 0 1 0) = .ok 55 ∧
    (⟨1, 2, fun _ _ _ => 100⟩ : Image).pix 0 0 0 = 100 ∧ ((55 : ℚ) ≠ 100) := by
  refine ⟨by decide, by decide, by decide⟩

/-! ## Claim C7: canvas sizing -/

/-- The 1×1 test frame of the C7 witness and counterexample. -/
def imC7 : Image := ⟨1, 1, fun _ _ _ => 10⟩

/-- Its two-frame filesystem. -/
def fsC7 : String → Option Image := fun p =>
  if p = "angle_0.jpg" then some imC7 else if p = "angle_5.jpg" then some imC7 else none

/-- C7 (counterexample): with 1-pixel-wide frames and HFOV 48 the simple
stitcher reports canvas width `int((1/48) * 360) = 7` — truncation — while
`round(pixels_per_degree * 360) = 8`; the two disagree, and the span is the
fixed 360, not a configurable value in {90, 180, 360}. -/
theorem canvas_width_truncated_not_rounded_cex :
    (simpleStitch extC { hfov := 48 } fsC7 ["angle_0.jpg", "angle_5.jpg"]).2.canvasWidth
      = some 7 ∧
    round (simplePpd 1 48 * 360) = 8 ∧ ((7 : ℤ) ≠ 8) := by
  refine ⟨by decide, by decide, by decide⟩

/-- C7 (amended): the canvas width used by the simple angle stitcher — and
reported in its statistics — is `int(pixels_per_degree * 360)` (truncation
toward zero of `w / hfov * 360`, with the angular span fixed at 360), and
the produced panorama has the first frame's height and exactly the canvas
width. -/
theorem simple_canvas_dims (ext : Ext) (cfg : SimpleCfg) (fs : String → Option Image)
    (paths : List String) (img0 : Image) (a0 : ℚ) (rest : List (Image × ℚ))
    (hlen : ¬ (simpleLoad fs paths).length < 2)
    (hsort : stableSort simpleLeAngle (simpleLoad fs paths) = (img0, a0) :: rest)
    (hcw : ¬ simpleCW img0.w cfg.hfov < 0)
    (hok : isErr (simplePlaceAll cfg.blendWidth img0.h img0.w (simpleCW img0.w cfg.hfov)
      (simplePpd img0.w cfg.hfov) (simpleWarped ext cfg img0 a0 rest)) = false) :
    ∃ cv, simpleStitchRaw ext cfg fs paths
        = .ok (some (simpleFinal img0.h (simpleCW img0.w cfg.hfov).toNat cv),
               simpleSuccessStats cfg paths.length img0.h (simpleCW img0.w cfg.hfov)
                 (simplePpd img0.w cfg.hfov)) ∧
      (simpleSuccessStats cfg paths.length img0.h (simpleCW img0.w cfg.hfov)
          (simplePpd img0.w cfg.hfov)).canvasWidth
        = some (pyInt (simplePpd img0.w cfg.hfov * 360)) ∧
      (simpleFinal img0.h (simpleCW img0.w cfg.hfov).toNat cv).h = img0.h ∧
      (simpleFinal img0.h (simpleCW img0.w cfg.hfov).toNat cv).w
        = (simpleCW img0.w cfg.hfov).toNat := by
  rcases hfold : simplePlaceAll cfg.blendWidth img0.h img0.w (simpleCW img0.w cfg.hfov)
      (simplePpd img0.w cfg.hfov) (simpleWarped ext cfg img0 a0 rest) with e | cv
  · rw [hfold] at hok
    exact absurd hok (by simp [isErr])
  · refine ⟨cv, ?_, rfl, rfl, rfl⟩
    rw [simpleStitchRaw, if_neg hlen, hsort]
    dsimp only
    rw [if_neg hcw, hfold]
    rfl

/-- Witness for `simple_canvas_dims`: two decodable 1×1 frames with angles 0
and 5 at HFOV 48. -/
theorem simple_canvas_dims_witness :
    (stableSort simpleLeAngle (simpleLoad fsC7 ["angle_0.jpg", "angle_5.jpg"]))
      = (imC7, 0) :: [(imC7, 5)] ∧
    (∃ cv, simpleStitchRaw extC { hfov := 48 } fsC7 ["angle_0.jpg", "angle_5.jpg"]
        = .ok (some (simpleFinal imC7.h (simpleCW imC7.w 48).toNat cv),
               simpleSuccessStats { hfov := 48 } 2 imC7.h (simpleCW imC7.w 48)
                 (simplePpd imC7.w 48)) ∧
      (simpleSuccessStats { hfov := 48 } 2 imC7.h (simpleCW imC7.w 48)
          (simplePpd imC7.w 48)).canvasWidth = some (pyInt (simplePpd imC7.w 48 * 360)) ∧
      (simpleFinal imC7.h (simpleCW imC7.w 48).toNat cv).h = imC7.h ∧
      (simpleFinal imC7.h (simpleCW imC7.w 48).toNat cv).w = (simpleCW imC7.w 48).toNat) :=
  ⟨by rfl,
    simple_canvas_dims extC { hfov := 48 } fsC7 ["angle_0.jpg", "angle_5.jpg"] imC7 0
      [(imC7, 5)] (by decide) (by rfl) (by decide) (by decide)⟩

end Pan360
